import Mathlib

/-!
Verification of the creamlinux-installer frontend core against its
natural-language specification.

The development shallowly embeds the TypeScript source:
  * `src/components/games/GameItem.tsx` — per-game action dispatch
    (`handleCreamAction`, `handleSmokeAction`, the visibility predicates
    `shouldShowCream` / `shouldShowSmoke` / `isProtonNoApi`, and the
    Rescan button);
  * `src/hooks/useToasts.ts` (`useConflictDetection`) — conflict
    detection over the game list, `resolveConflict`, `closeReminder`;
  * `src/hooks/useDlcManager.ts` — DLC stream state, the `dlc-found`
    listener, `streamGameDlcs`, `handleGameEdit`'s stream phase,
    `handleDlcDialogClose`, and the enabled-DLC merge effect;
  * `DlcSelectionDialog` — the selection list, its initialization
    effect and its new-DLC deduplication effect.

React `useState` cells become fields of explicit state records; each
event handler or effect becomes a function from state to state (paired
with the list of backend commands it issues where that matters).
Asynchronous continuations (the `setTimeout` bodies in
`resolveConflict`) are composed into the step function that schedules
them, and each Tauri event is modelled as one step after which the
dependent React effects run to completion.
-/

namespace CreamLinux

/-- The four game actions of `ActionButton.tsx`. -/
inductive ActionType
  | install_cream
  | uninstall_cream
  | install_smoke
  | uninstall_smoke
deriving DecidableEq, Repr

/-- The `Game` interface of `src/types/Game.ts`.  Optional booleans are
modelled as `Bool` (TS truthiness of `undefined` is `false`); the
optional `api_files` array is a list (absent ≡ empty for every use in
`GameItem.tsx`, which always guards with a length check). -/
structure Game where
  id : String
  title : String
  path : String
  native : Bool
  api_files : List String
  cream_installed : Bool
  smoke_installed : Bool
  installing : Bool
deriving DecidableEq, Repr

/-- Outcome of a click handler in `GameItem.tsx`: either it dispatches
an action through `onAction`, or it returns with no effect.  The
`alreadyRunning` constructor is the spec's `AlreadyRunning` failure; it
is part of the outcome vocabulary so the spec's claim can be stated,
and the source handlers never produce it. -/
inductive ActionResult
  | dispatched (a : ActionType)
  | noEffect
  | alreadyRunning
deriving DecidableEq, Repr

/-- `GameItem.tsx` line 52: CreamLinux buttons only for native games. -/
def shouldShowCream (game : Game) : Bool :=
  game.native == true

/-- `GameItem.tsx` line 55: SmokeAPI buttons only for non-native games
with at least one api file. -/
def shouldShowSmoke (game : Game) : Bool :=
  !game.native && !game.api_files.isEmpty

/-- `GameItem.tsx` line 58: a Proton game without api files. -/
def isProtonNoApi (game : Game) : Bool :=
  !game.native && game.api_files.isEmpty

/-- `GameItem.tsx` lines 60-64: `handleCreamAction`.  If
`game.installing` is set it returns immediately (no dispatch);
otherwise it dispatches install or uninstall according to
`cream_installed`. -/
def handleCreamAction (game : Game) : ActionResult :=
  if game.installing then ActionResult.noEffect
  else
    ActionResult.dispatched
      (if game.cream_installed then ActionType.uninstall_cream
       else ActionType.install_cream)

/-- `GameItem.tsx` lines 66-70: `handleSmokeAction`, same guard. -/
def handleSmokeAction (game : Game) : ActionResult :=
  if game.installing then ActionResult.noEffect
  else
    ActionResult.dispatched
      (if game.smoke_installed then ActionType.uninstall_smoke
       else ActionType.install_smoke)

/-- `useDlcManager.ts` lines 165-168: the duplicate-request guard at the
head of `handleGameEdit`; `true` means the request is dropped with a
log line and no effect. -/
def handleGameEditDuplicateGuard (isFetchingDlcs : Bool)
    (activeDlcFetchId : Option String) (gameId : String) : Bool :=
  isFetchingDlcs && (activeDlcFetchId == some gameId)

/-- All actions the rendered `GameItem` card can dispatch for `game`:
the CreamLinux button (when shown), the SmokeAPI button (when shown),
and the Rescan button of the "Steam API DLL not found" message, which
calls `onAction(game.id, 'install_smoke')` directly
(`GameItem.tsx` lines 111-143). -/
def gameItemDispatchable (game : Game) : List ActionType :=
  (if shouldShowCream game then
      match handleCreamAction game with
      | ActionResult.dispatched a => [a]
      | _ => []
    else [])
  ++ (if shouldShowSmoke game then
      match handleSmokeAction game with
      | ActionResult.dispatched a => [a]
      | _ => []
    else [])
  ++ (if isProtonNoApi game then [ActionType.install_smoke] else [])

/-- A game currently running an action, for the C1 counterexample. -/
def busyGame : Game :=
  { id := "10", title := "Busy", path := "/g/busy", native := true
  , api_files := [], cream_installed := false, smoke_installed := false
  , installing := true }

/-- A second busy game, for the C1 witness. -/
def busyGame2 : Game :=
  { id := "11", title := "Busy2", path := "/g/busy2", native := false
  , api_files := ["steam_api64.dll"], cream_installed := true
  , smoke_installed := true, installing := true }

/-- A Proton game with no api files, for the C5 counterexample. -/
def protonNoApiGame : Game :=
  { id := "20", title := "NoApi", path := "/g/noapi", native := false
  , api_files := [], cream_installed := false, smoke_installed := false
  , installing := false }

/-- A Proton game with an api file, for the C5 witness. -/
def protonApiGame : Game :=
  { id := "21", title := "WithApi", path := "/g/api", native := false
  , api_files := ["steam_api.dll"], cream_installed := false
  , smoke_installed := false, installing := false }

/-- C1 counterexample: with the `installing` flag set, a second request
is returned without effect — `noEffect`, not the `AlreadyRunning`
failure the claim requires — so the request is silently ignored. -/
theorem second_request_no_already_running :
    busyGame.installing = true ∧
    handleCreamAction busyGame = ActionResult.noEffect ∧
    handleSmokeAction busyGame = ActionResult.noEffect := by
  decide

/-- C1 (amended): while a game's `installing` flag is set, a second
install/uninstall request for it is silently ignored — both handlers
return without dispatching any action (so nothing is queued and nothing
is overwritten), and no `AlreadyRunning` failure is produced; likewise
`handleGameEdit` drops a duplicate fetch request for the active game. -/
theorem second_request_silently_ignored (game : Game)
    (h : game.installing = true) :
    handleCreamAction game = ActionResult.noEffect ∧
    handleSmokeAction game = ActionResult.noEffect ∧
    (∀ gid : String, handleGameEditDuplicateGuard true (some gid) gid = true) := by
  refine ⟨?_, ?_, ?_⟩
  · simp [handleCreamAction, h]
  · simp [handleSmokeAction, h]
  · intro gid
    simp [handleGameEditDuplicateGuard]

/-- C1 witness: the amended claim evaluated on a concrete busy game. -/
theorem second_request_silently_ignored_witness :
    handleCreamAction busyGame2 = ActionResult.noEffect ∧
    handleSmokeAction busyGame2 = ActionResult.noEffect ∧
    (∀ gid : String, handleGameEditDuplicateGuard true (some gid) gid = true) :=
  second_request_silently_ignored busyGame2 rfl

/-- C5 counterexample: the Rescan button of a Proton game with no api
files dispatches `install_smoke` even though no capability file is
present, so an `install_smoke` dispatch does not imply a nonempty
`api_files`. -/
theorem rescan_dispatches_smoke_without_api_files :
    ActionType.install_smoke ∈ gameItemDispatchable protonNoApiGame ∧
    protonNoApiGame.api_files = [] := by
  decide

/-- C5 (amended): every `install_smoke` the `GameItem` card can dispatch
is for a non-native (compatibility-layer) game, and every
`install_cream` it can dispatch is for a native game; the capability
file requirement holds for the SmokeAPI action button but not for the
Rescan button, which dispatches `install_smoke` precisely when the
non-native game has no api files. -/
theorem dispatch_platform_eligibility (game : Game) :
    (ActionType.install_smoke ∈ gameItemDispatchable game →
      game.native = false) ∧
    (ActionType.install_cream ∈ gameItemDispatchable game →
      game.native = true) := by
  unfold gameItemDispatchable shouldShowCream shouldShowSmoke isProtonNoApi
  unfold handleCreamAction handleSmokeAction
  cases hn : game.native <;>
    cases hi : game.installing <;>
      cases hc : game.cream_installed <;>
        cases hs : game.smoke_installed <;>
          cases he : game.api_files.isEmpty <;>
            simp

/-! ## Conflict detection (`useConflictDetection`, `useToasts.ts`) -/

/-- The two conflict kinds of the `Conflict` interface. -/
inductive ConflictType
  | creamToProton
  | smokeToNative
deriving DecidableEq, Repr

/-- The `Conflict` interface. -/
structure Conflict where
  gameId : String
  gameTitle : String
  type : ConflictType
deriving DecidableEq, Repr

/-- The `ConflictResolution` interface. -/
structure ConflictResolution where
  gameId : String
  removeFiles : Bool
  conflictType : ConflictType
deriving DecidableEq, Repr

/-- The `useState` cells of `useConflictDetection`.  `resolvedConflicts`
is the `Set<string>` of already-resolved game ids, as a list. -/
structure ConflictState where
  conflicts : List Conflict
  currentConflict : Option Conflict
  showReminder : Bool
  isProcessing : Bool
  resolvedConflicts : List String
deriving DecidableEq, Repr

/-- The body of the detection loop for one game: skip if already
resolved; push `cream-to-proton` when `!game.native &&
game.cream_installed`; push `smoke-to-native` when `game.native &&
game.smoke_installed`. -/
def gameConflicts (resolved : List String) (game : Game) : List Conflict :=
  if resolved.contains game.id then []
  else
    (if !game.native && game.cream_installed then
        [{ gameId := game.id, gameTitle := game.title
         , type := ConflictType.creamToProton }]
      else [])
    ++ (if game.native && game.smoke_installed then
        [{ gameId := game.id, gameTitle := game.title
         , type := ConflictType.smokeToNative }]
      else [])

/-- The `detectedConflicts` list the detection effect builds by walking
`games` in order. -/
def detectConflicts (games : List Game) (resolved : List String) : List Conflict :=
  match games with
  | [] => []
  | game :: rest => gameConflicts resolved game ++ detectConflicts rest resolved

/-- The detection effect: store the detected list, and surface its first
element when no conflict is current and no resolution is in flight. -/
def runDetection (games : List Game) (s : ConflictState) : ConflictState :=
  let detected := detectConflicts games s.resolvedConflicts
  if detected.length > 0 ∧ s.currentConflict = none ∧ s.isProcessing = false then
    { s with conflicts := detected, currentConflict := detected.head? }
  else
    { s with conflicts := detected }

/-- `resolveConflict` together with the continuation its `setTimeout`
schedules.  The synchronous part marks the game resolved, removes its
conflicts from the queue and clears the surfaced conflict; the timer
then either shows the reminder (cream-to-proton) or surfaces the next
remaining conflict (smoke-to-native), and clears `isProcessing`. -/
def resolveConflict (s : ConflictState) : Option ConflictResolution × ConflictState :=
  match s.currentConflict with
  | none => (none, s)
  | some c =>
    if s.isProcessing then (none, s)
    else
      let resolution : ConflictResolution :=
        { gameId := c.gameId, removeFiles := true, conflictType := c.type }
      let remaining := s.conflicts.filter (fun x => x.gameId != c.gameId)
      let s1 : ConflictState :=
        { s with resolvedConflicts := c.gameId :: s.resolvedConflicts
               , conflicts := remaining
               , currentConflict := none }
      let s2 : ConflictState :=
        if c.type = ConflictType.creamToProton then
          { s1 with showReminder := true, isProcessing := false }
        else
          { s1 with currentConflict := remaining.head?, isProcessing := false }
      (some resolution, s2)

/-- `closeReminder`: hide the reminder, then surface the first queued
conflict if any remain. -/
def closeReminder (s : ConflictState) : ConflictState :=
  let s1 := { s with showReminder := false }
  if s.conflicts.length > 0 then { s1 with currentConflict := s.conflicts.head? }
  else s1

/-- The condition under which the detection pass emits a conflict `c`
for the game `g`. -/
def ConflictFor (resolved : List String) (g : Game) (c : Conflict) : Prop :=
  resolved.contains g.id = false ∧ c.gameId = g.id ∧ c.gameTitle = g.title ∧
    ((c.type = ConflictType.creamToProton ∧ g.native = false ∧
        g.cream_installed = true) ∨
     (c.type = ConflictType.smokeToNative ∧ g.native = true ∧
        g.smoke_installed = true))

theorem mem_gameConflicts {resolved : List String} {g : Game} {c : Conflict} :
    c ∈ gameConflicts resolved g ↔ ConflictFor resolved g c := by
  obtain ⟨cid, ctitle, ctype⟩ := c
  unfold gameConflicts ConflictFor
  cases hres : resolved.contains g.id <;>
    cases hn : g.native <;>
      cases hc : g.cream_installed <;>
        cases hs : g.smoke_installed <;>
          cases ctype <;>
            simp [Conflict.mk.injEq, and_assoc]

theorem mem_detectConflicts {games : List Game} {resolved : List String}
    {c : Conflict} :
    c ∈ detectConflicts games resolved ↔
      ∃ g, g ∈ games ∧ ConflictFor resolved g c := by
  induction games with
  | nil => simp [detectConflicts]
  | cons g rest ih =>
      simp only [detectConflicts, List.mem_append, ih, List.mem_cons]
      constructor
      · rintro (h | ⟨g', hg', hfor⟩)
        · exact ⟨g, Or.inl rfl, mem_gameConflicts.mp h⟩
        · exact ⟨g', Or.inr hg', hfor⟩
      · rintro ⟨g', (rfl | hg'), hfor⟩
        · exact Or.inl (mem_gameConflicts.mpr hfor)
        · exact Or.inr ⟨g', hg', hfor⟩

/-- C2: one full characterization of the detection pass — a conflict is
emitted exactly for a not-yet-resolved game whose installed variant
disagrees with its platform, with the matching conflict type, and for
no other game state. -/
theorem conflict_detection_exact (games : List Game) (resolved : List String)
    (c : Conflict) :
    c ∈ detectConflicts games resolved ↔
      ∃ g, g ∈ games ∧ resolved.contains g.id = false ∧
        c.gameId = g.id ∧ c.gameTitle = g.title ∧
        ((c.type = ConflictType.creamToProton ∧ g.native = false ∧
            g.cream_installed = true) ∨
         (c.type = ConflictType.smokeToNative ∧ g.native = true ∧
            g.smoke_installed = true)) := by
  simpa [ConflictFor] using
    (@mem_detectConflicts games resolved c)

theorem gameConflicts_length_le (resolved : List String) (g : Game) :
    (gameConflicts resolved g).length ≤ 1 := by
  unfold gameConflicts
  cases hres : resolved.contains g.id <;>
    cases hn : g.native <;>
      cases hc : g.cream_installed <;>
        cases hs : g.smoke_installed <;>
          simp

theorem detect_gameId_mem {games : List Game} {resolved : List String}
    {c : Conflict} (h : c ∈ detectConflicts games resolved) :
    c.gameId ∈ games.map Game.id := by
  obtain ⟨g, hg, hfor⟩ := mem_detectConflicts.mp h
  exact List.mem_map.mpr ⟨g, hg, hfor.2.1.symm⟩

theorem detect_not_resolved {games : List Game} {resolved : List String}
    {c : Conflict} (h : c ∈ detectConflicts games resolved) :
    resolved.contains c.gameId = false := by
  obtain ⟨g, _, hfor⟩ := mem_detectConflicts.mp h
  rw [hfor.2.1]
  exact hfor.1

theorem countP_detect_le_one {games : List Game} {resolved : List String}
    (hnd : (games.map Game.id).Nodup) (i : String) :
    (detectConflicts games resolved).countP (fun x => x.gameId == i) ≤ 1 := by
  induction games with
  | nil => simp [detectConflicts]
  | cons g rest ih =>
      rw [List.map_cons, List.nodup_cons] at hnd
      rw [detectConflicts, List.countP_append]
      by_cases hi : g.id = i
      · have hrest :
            (detectConflicts rest resolved).countP (fun x => x.gameId == i) = 0 := by
          rw [List.countP_eq_zero]
          intro x hx
          have hmem := detect_gameId_mem hx
          simp only [beq_iff_eq]
          intro hxi
          rw [hxi, ← hi] at hmem
          exact hnd.1 hmem
        calc (gameConflicts resolved g).countP (fun x => x.gameId == i) +
              (detectConflicts rest resolved).countP (fun x => x.gameId == i)
            = (gameConflicts resolved g).countP (fun x => x.gameId == i) := by
              rw [hrest, Nat.add_zero]
          _ ≤ (gameConflicts resolved g).length := List.countP_le_length _
          _ ≤ 1 := gameConflicts_length_le resolved g
      · have hhead :
            (gameConflicts resolved g).countP (fun x => x.gameId == i) = 0 := by
          rw [List.countP_eq_zero]
          intro x hx
          have := (mem_gameConflicts.mp hx).2.1
          simp only [beq_iff_eq]
          intro hxi
          exact hi (this ▸ hxi)
        rw [hhead, Nat.zero_add]
        exact ih hnd.2

/-- C3: resolution is idempotent — a reconciliation pass over games with
distinct ids surfaces at most one conflict per target, and after
`resolveConflict` has run for the surfaced conflict's game, no
detection pass (over any games list) emits a conflict for that game
again. -/
theorem conflict_resolution_idempotent (s : ConflictState) (c : Conflict)
    (games : List Game) (h1 : s.currentConflict = some c)
    (h2 : s.isProcessing = false) :
    ((games.map Game.id).Nodup →
      ∀ i, (detectConflicts games s.resolvedConflicts).countP
          (fun x => x.gameId == i) ≤ 1) ∧
    (∀ x, x ∈ detectConflicts games (resolveConflict s).2.resolvedConflicts →
      x.gameId ≠ c.gameId) := by
  constructor
  · intro hnd i
    exact countP_detect_le_one hnd i
  · intro x hx
    have hresolved : (resolveConflict s).2.resolvedConflicts =
        c.gameId :: s.resolvedConflicts := by
      simp only [resolveConflict, h1, h2]
      by_cases hct : c.type = ConflictType.creamToProton <;> simp [hct]
    rw [hresolved] at hx
    have hcontains := detect_not_resolved hx
    intro heq
    rw [heq] at hcontains
    simp [List.contains_cons] at hcontains

/-- A conflict state with a surfaced smoke-to-native conflict, for the
C3 and C4 witnesses. -/
def sampleConflictA : Conflict :=
  { gameId := "30", gameTitle := "GameA", type := ConflictType.smokeToNative }

/-- A second queued conflict behind `sampleConflictA`. -/
def sampleConflictB : Conflict :=
  { gameId := "31", gameTitle := "GameB", type := ConflictType.creamToProton }

/-- A state surfacing `sampleConflictA` with `sampleConflictB` queued. -/
def sampleConflictState : ConflictState :=
  { conflicts := [sampleConflictA, sampleConflictB]
  , currentConflict := some sampleConflictA
  , showReminder := false, isProcessing := false, resolvedConflicts := [] }

/-- A game that still triggers detection for `sampleConflictA`'s id. -/
def sampleGameA : Game :=
  { id := "30", title := "GameA", path := "/g/a", native := true
  , api_files := [], cream_installed := false, smoke_installed := true
  , installing := false }

/-- C3 witness: the idempotence theorem evaluated on a concrete state
whose surfaced conflict is then resolved. -/
theorem conflict_resolution_idempotent_witness :
    (detectConflicts [sampleGameA] [] ).countP
      (fun x => x.gameId == "30") ≤ 1 :=
  (conflict_resolution_idempotent sampleConflictState sampleConflictA
    [sampleGameA] rfl rfl).1 (by decide) "30"

/-- C4: at most one conflict is surfaced at a time (the surfaced slot is
the single `Option`-valued `currentConflict` cell, set to the head of
the detected queue when empty), and conflicts are surfaced
sequentially — resolving a smoke-to-native conflict immediately
surfaces the head of the remaining queue, while resolving a
cream-to-proton conflict first shows the reminder and surfaces the head
of the remaining queue when the reminder is closed. -/
theorem conflict_sequential_surfacing (s : ConflictState) (c : Conflict)
    (games : List Game) :
    (s.currentConflict = none → s.isProcessing = false →
      (runDetection games s).currentConflict =
        (detectConflicts games s.resolvedConflicts).head?) ∧
    (s.currentConflict = some c → s.isProcessing = false →
      (c.type = ConflictType.smokeToNative →
        (resolveConflict s).2.currentConflict =
          (s.conflicts.filter (fun x => x.gameId != c.gameId)).head?) ∧
      (c.type = ConflictType.creamToProton →
        (resolveConflict s).2.showReminder = true ∧
        (resolveConflict s).2.currentConflict = none ∧
        (closeReminder (resolveConflict s).2).currentConflict =
          (s.conflicts.filter (fun x => x.gameId != c.gameId)).head?)) := by
  constructor
  · intro hnone hproc
    unfold runDetection
    cases hdet : detectConflicts games s.resolvedConflicts with
    | nil => simp [hdet, hnone, hproc]
    | cons d rest => simp [hdet, hnone, hproc]
  · intro hcur hproc
    constructor
    · intro hct
      simp only [resolveConflict, hcur, hproc]
      have : ¬ c.type = ConflictType.creamToProton := by
        rw [hct]; intro h; cases h
      simp [this]
    · intro hct
      refine ⟨?_, ?_, ?_⟩
      · simp [resolveConflict, hcur, hproc, hct]
      · simp [resolveConflict, hcur, hproc, hct]
      · simp only [resolveConflict, hcur, hproc]
        simp only [hct, if_true, if_pos rfl, Bool.false_eq_true, if_false]
        unfold closeReminder
        cases hrem : s.conflicts.filter (fun x => x.gameId != c.gameId) with
        | nil => simp [hrem]
        | cons d rest => simp [hrem]

/-! ## DLC manager (`useDlcManager.ts`) -/

/-- The `DlcInfo` record of `src/types`: one DLC entry. -/
structure DlcInfo where
  appid : String
  name : String
  enabled : Bool
deriving DecidableEq, Repr

/-- The `DlcDialogState` interface (`useDlcManager.ts` lines 6-18);
`error` is `Option` for the nullable string. -/
structure DlcDialogState where
  visible : Bool
  gameId : String
  gameTitle : String
  dlcs : List DlcInfo
  enabledDlcs : List String
  isLoading : Bool
  isEditMode : Bool
  progress : Nat
  progressMessage : String
  timeLeft : String
  error : Option String
deriving DecidableEq, Repr

/-- The mutable cells of `useDlcManager`: the fetch flag, the active
fetch id ref, whether an `AbortController` is currently held, the
`forceReload` flag and the dialog state. -/
structure DlcManagerState where
  isFetchingDlcs : Bool
  activeDlcFetchId : Option String
  hasController : Bool
  forceReload : Bool
  dlcDialog : DlcDialogState
deriving DecidableEq, Repr

/-- A backend command issued through Tauri `invoke`, or an abort on the
held `AbortController`. -/
inductive BackendCommand
  | abortDlcFetch (gameId : String)
  | controllerAbort
deriving DecidableEq, Repr

/-- A JavaScript exception as the handlers inspect it: whether it is a
`DOMException`, its `name` and its message. -/
structure JsError where
  isDOMException : Bool
  name : String
  message : String
deriving DecidableEq, Repr

/-- Outcome of the awaited `stream_game_dlcs` invocation. -/
inductive StreamOutcome
  | ok
  | err (e : JsError)
deriving DecidableEq, Repr

/-- The string the source compares `error.name` against. -/
def abortErrorName : String := "AbortError"

/-- `streamGameDlcs` (`useDlcManager.ts` lines 134-157): set the fetch
flag and active id, await the invocation; a `DOMException` named
`AbortError` is swallowed with a log line, any other failure is
rethrown; the `finally` block resets the fetch flag and active id in
every case.  The second component is the exception the caller sees. -/
def streamGameDlcs (gameId : String) (outcome : StreamOutcome)
    (s : DlcManagerState) : DlcManagerState × Option JsError :=
  let s1 := { s with isFetchingDlcs := true, activeDlcFetchId := some gameId }
  let thrown : Option JsError :=
    match outcome with
    | StreamOutcome.ok => none
    | StreamOutcome.err e =>
        if e.isDOMException && e.name == abortErrorName then none else some e
  ({ s1 with isFetchingDlcs := false, activeDlcFetchId := none }, thrown)

/-- The streaming phase of `handleGameEdit` (`useDlcManager.ts` lines
220-237): mark the fetch active, create the abort controller, run
`streamGameDlcs`, and catch a thrown error — when its name is not
`AbortError` the dialog's `error` field is set and loading stops. -/
def handleGameEditStreamPhase (gameId : String) (outcome : StreamOutcome)
    (s : DlcManagerState) : DlcManagerState :=
  let s1 := { s with isFetchingDlcs := true
                   , activeDlcFetchId := some gameId
                   , hasController := true }
  let r := streamGameDlcs gameId outcome s1
  match r.2 with
  | none => r.1
  | some e =>
      if e.name == abortErrorName then r.1
      else
        { r.1 with dlcDialog :=
            { r.1.dlcDialog with
                error := some ("Failed to load DLCs: " ++ e.message)
              , isLoading := false } }

/-- `handleDlcDialogClose` (`useDlcManager.ts` lines 260-290): when a
fetch is active, invoke `abort_dlc_fetch` for the active id and reset
the fetch state; abort and drop the controller if one is held; hide the
dialog, clear its DLC list, and set `forceReload`.  The second
component lists the issued commands in order. -/
def handleDlcDialogClose (s : DlcManagerState) :
    DlcManagerState × List BackendCommand :=
  let step1 : DlcManagerState × List BackendCommand :=
    match s.activeDlcFetchId with
    | some gid =>
        if s.isFetchingDlcs then
          ({ s with activeDlcFetchId := none, isFetchingDlcs := false }
          , [BackendCommand.abortDlcFetch gid])
        else (s, [])
    | none => (s, [])
  let step2 : DlcManagerState × List BackendCommand :=
    if step1.1.hasController then
      ({ step1.1 with hasController := false }
      , step1.2 ++ [BackendCommand.controllerAbort])
    else step1
  ({ step2.1 with forceReload := true
                , dlcDialog := { step2.1.dlcDialog with
                    visible := false, dlcs := [] } }
  , step2.2)

/-- The `dlc-found` listener (`useDlcManager.ts` lines 51-59): append
the streamed DLC to the dialog list with `enabled := true`. -/
def dlcFoundListener (appid name : String) (d : DlcDialogState) : DlcDialogState :=
  { d with dlcs := d.dlcs ++ [{ appid := appid, name := name, enabled := true }] }

/-- The enabled-DLC merge effect (`useDlcManager.ts` lines 293-303):
when the loaded enabled set is non-empty, rewrite every item's
`enabled` to `enabledDlcs.length === 0 || enabledDlcs.includes(appid)`. -/
def enabledDlcsMergeEffect (d : DlcDialogState) : DlcDialogState :=
  if d.enabledDlcs.length > 0 then
    { d with dlcs := d.dlcs.map (fun dlc =>
        { dlc with enabled :=
            (d.enabledDlcs.length == 0) || d.enabledDlcs.contains dlc.appid }) }
  else d

/-- C6: closing the DLC dialog while a fetch is active issues exactly an
`abort_dlc_fetch` for the active id and fully resets the fetch state
(active id cleared, fetch flag off, controller dropped, dialog hidden);
when no fetch is active, no `abort_dlc_fetch` is issued. -/
theorem dialog_close_aborts_active_fetch (s : DlcManagerState) :
    (∀ gid, s.isFetchingDlcs = true → s.activeDlcFetchId = some gid →
      BackendCommand.abortDlcFetch gid ∈ (handleDlcDialogClose s).2 ∧
      (handleDlcDialogClose s).1.activeDlcFetchId = none ∧
      (handleDlcDialogClose s).1.isFetchingDlcs = false ∧
      (handleDlcDialogClose s).1.hasController = false ∧
      (handleDlcDialogClose s).1.dlcDialog.visible = false) ∧
    ((s.isFetchingDlcs = false ∨ s.activeDlcFetchId = none) →
      ∀ gid, BackendCommand.abortDlcFetch gid ∉ (handleDlcDialogClose s).2) := by
  constructor
  · intro gid hfetch hactive
    simp only [handleDlcDialogClose, hactive, hfetch, if_true]
    by_cases hc : s.hasController <;> simp [hc]
  · intro hno gid
    rcases hno with hf | ha
    · cases hact : s.activeDlcFetchId with
      | none =>
          simp only [handleDlcDialogClose, hact]
          by_cases hc : s.hasController <;> simp [hc]
      | some g =>
          simp only [handleDlcDialogClose, hact, hf]
          by_cases hc : s.hasController <;> simp [hc]
    · simp only [handleDlcDialogClose, ha]
      by_cases hc : s.hasController <;> simp [hc]

/-- C7: an aborted DLC stream is never an error — a `DOMException` named
`AbortError` is swallowed by `streamGameDlcs` (nothing propagates), the
dialog's `error` field is left untouched and the fetch state returns to
idle — while a failure whose name is not `AbortError` propagates out of
`streamGameDlcs` and sets the dialog's `error` field in
`handleGameEdit`'s catch. -/
theorem cancelled_stream_not_error (gameId : String) (e : JsError)
    (s : DlcManagerState) :
    (e.isDOMException = true → e.name = abortErrorName →
      (streamGameDlcs gameId (StreamOutcome.err e) s).2 = none ∧
      (handleGameEditStreamPhase gameId (StreamOutcome.err e) s).dlcDialog.error
        = s.dlcDialog.error ∧
      (handleGameEditStreamPhase gameId (StreamOutcome.err e) s).isFetchingDlcs
        = false ∧
      (handleGameEditStreamPhase gameId (StreamOutcome.err e) s).activeDlcFetchId
        = none) ∧
    (e.name ≠ abortErrorName →
      (streamGameDlcs gameId (StreamOutcome.err e) s).2 = some e ∧
      (handleGameEditStreamPhase gameId (StreamOutcome.err e) s).dlcDialog.error
        = some ("Failed to load DLCs: " ++ e.message) ∧
      (handleGameEditStreamPhase gameId (StreamOutcome.err e) s).dlcDialog.isLoading
        = false) := by
  constructor
  · intro hdom hname
    refine ⟨?_, ?_, ?_, ?_⟩ <;>
      simp [streamGameDlcs, handleGameEditStreamPhase, hdom, hname]
  · intro hname
    have hbeq : (e.name == abortErrorName) = false := by
      simp [hname]
    refine ⟨?_, ?_, ?_⟩ <;>
      simp [streamGameDlcs, handleGameEditStreamPhase, hbeq]

/-- C8: streamed items arrive with `enabled := true`; after the merge
effect runs with a non-empty loaded enabled set, every item's `enabled`
equals membership of its appid in that set; with an empty loaded set
the merge effect changes nothing, so streamed items keep their default. -/
theorem enabled_set_source_of_truth (d : DlcDialogState) (appid name : String) :
    ((dlcFoundListener appid name d).dlcs =
      d.dlcs ++ [{ appid := appid, name := name, enabled := true }]) ∧
    (d.enabledDlcs ≠ [] →
      ∀ x, x ∈ (enabledDlcsMergeEffect d).dlcs →
        x.enabled = d.enabledDlcs.contains x.appid) ∧
    (d.enabledDlcs = [] → enabledDlcsMergeEffect d = d) := by
  refine ⟨rfl, ?_, ?_⟩
  · intro hne x hx
    have hlen : d.enabledDlcs.length > 0 := List.length_pos.mpr hne
    have hlz : (d.enabledDlcs.length == 0) = false := by
      simp [Nat.pos_iff_ne_zero.mp hlen]
    simp only [enabledDlcsMergeEffect, if_pos hlen, List.mem_map] at hx
    obtain ⟨y, _, rfl⟩ := hx
    simp [hlz]
  · intro hnil
    simp [enabledDlcsMergeEffect, hnil]

/-! ## DLC selection dialog (`DlcSelectionDialog`) -/

/-- The dialog's cells that the streaming path touches: the incoming
`dlcs` prop (fed by the `dlc-found` listener), the `selectedDlcs`
selection list, and the `initialized` flag. -/
structure DlcSelectionState where
  visible : Bool
  dlcs : List DlcInfo
  selectedDlcs : List DlcInfo
  initialized : Bool
deriving DecidableEq, Repr

/-- The initialization effect (part_019 lines 40-51): when the dialog is
visible, the DLC list is non-empty and the selection has not been
initialized, copy the list into the selection and mark initialized. -/
def initializeSelectionEffect (s : DlcSelectionState) : DlcSelectionState :=
  if s.visible = true ∧ 0 < s.dlcs.length ∧ s.initialized = false then
    { s with selectedDlcs := s.dlcs, initialized := true }
  else s

/-- The new-DLC effect (part_019 lines 92-103): once initialized, when
`dlcs` outgrows the selection, append the DLCs whose appid is not yet
in the selection, keeping their enabled state. -/
def newDlcsEffect (s : DlcSelectionState) : DlcSelectionState :=
  if s.initialized = true ∧ s.selectedDlcs.length < s.dlcs.length then
    let currentAppIds := s.selectedDlcs.map DlcInfo.appid
    let newDlcs := s.dlcs.filter (fun d => !(currentAppIds.contains d.appid))
    if 0 < newDlcs.length then
      { s with selectedDlcs := s.selectedDlcs ++ newDlcs }
    else s
  else s

/-- `handleToggleDlc` (part_019 lines 79-83): flip one entry's enabled
flag. -/
def handleToggleDlc (appid : String) (s : DlcSelectionState) : DlcSelectionState :=
  { s with selectedDlcs := s.selectedDlcs.map (fun dlc =>
      if dlc.appid == appid then { dlc with enabled := !dlc.enabled } else dlc) }

/-- `handleToggleSelectAll` (part_019 lines 105-115) applied with the
new select-all value. -/
def handleToggleSelectAll (value : Bool) (s : DlcSelectionState) : DlcSelectionState :=
  { s with selectedDlcs := s.selectedDlcs.map (fun dlc =>
      { dlc with enabled := value }) }

/-- One `dlc-found` emission as the dialog observes it: the manager
appends the item to `dlcs`, then the dialog's effects run. -/
def dlcArrival (d : DlcInfo) (s : DlcSelectionState) : DlcSelectionState :=
  newDlcsEffect (initializeSelectionEffect { s with dlcs := s.dlcs ++ [d] })

/-- The dialog as first opened for a streaming install: visible, both
lists empty, not yet initialized. -/
def initialSelectionState : DlcSelectionState :=
  { visible := true, dlcs := [], selectedDlcs := [], initialized := false }

/-- The dialog state after a whole sequence of `dlc-found` emissions. -/
def runDlcStream (events : List DlcInfo) : DlcSelectionState :=
  events.foldl (fun s d => dlcArrival d s) initialSelectionState

/-- Invariant of the streaming dialog session: before initialization
nothing has arrived; afterwards the selection's appids are duplicate
free, the selection is no longer than the incoming list, and both hold
exactly the same appids. -/
def SelectionInv (s : DlcSelectionState) : Prop :=
  s.visible = true ∧
  (s.initialized = false → s.dlcs = [] ∧ s.selectedDlcs = []) ∧
  (s.initialized = true →
    (s.selectedDlcs.map DlcInfo.appid).Nodup ∧
    s.selectedDlcs.length ≤ s.dlcs.length ∧
    (∀ a, a ∈ s.dlcs.map DlcInfo.appid ↔ a ∈ s.selectedDlcs.map DlcInfo.appid))

theorem selectionInv_initial : SelectionInv initialSelectionState := by
  refine ⟨rfl, fun _ => ⟨rfl, rfl⟩, fun h => ?_⟩
  cases h

theorem selectionInv_arrival {s : DlcSelectionState} (d : DlcInfo)
    (hinv : SelectionInv s) : SelectionInv (dlcArrival d s) := by
  obtain ⟨hvis, hpre, hpost⟩ := hinv
  unfold dlcArrival
  rcases Bool.eq_false_or_eq_true s.initialized with hinit | hinit
  · -- already initialized: the init effect skips, the new-DLC effect runs
    obtain ⟨hnd, hlen, hsame⟩ := hpost hinit
    have h1 : initializeSelectionEffect { s with dlcs := s.dlcs ++ [d] } =
        { s with dlcs := s.dlcs ++ [d] } := by
      rw [initializeSelectionEffect, if_neg]
      rintro ⟨-, -, hbad⟩
      rw [hinit] at hbad
      cases hbad
    rw [h1]
    have hcond : s.selectedDlcs.length < (s.dlcs ++ [d]).length := by
      rw [List.length_append]
      simp only [List.length_cons, List.length_nil]
      omega
    have hfilter : s.dlcs.filter
        (fun x => !((s.selectedDlcs.map DlcInfo.appid).contains x.appid)) = [] := by
      rw [List.filter_eq_nil_iff]
      intro x hx
      have hxin : x.appid ∈ s.selectedDlcs.map DlcInfo.appid :=
        (hsame x.appid).mp (List.mem_map.mpr ⟨x, hx, rfl⟩)
      simp [hxin]
    by_cases hdin : d.appid ∈ s.selectedDlcs.map DlcInfo.appid
    · have hnew : (s.dlcs ++ [d]).filter
          (fun x => !((s.selectedDlcs.map DlcInfo.appid).contains x.appid)) = [] := by
        rw [List.filter_append, hfilter, List.nil_append, List.filter_singleton]
        simp [hdin]
      have h2 : newDlcsEffect { s with dlcs := s.dlcs ++ [d] } =
          { s with dlcs := s.dlcs ++ [d] } := by
        rw [newDlcsEffect, if_pos ⟨hinit, hcond⟩]
        simp only [hnew]
        rw [if_neg]
        simp
      rw [h2]
      refine ⟨hvis, ?_, ?_⟩
      · intro hbad
        rw [hinit] at hbad
        cases hbad
      · intro _
        refine ⟨hnd, le_of_lt hcond, fun a => ?_⟩
        simp only [List.map_append, List.mem_append, List.map_cons, List.map_nil,
          List.mem_singleton]
        constructor
        · rintro (h | rfl)
          · exact (hsame a).mp h
          · exact hdin
        · intro h
          exact Or.inl ((hsame a).mpr h)
    · have hnew : (s.dlcs ++ [d]).filter
          (fun x => !((s.selectedDlcs.map DlcInfo.appid).contains x.appid)) = [d] := by
        rw [List.filter_append, hfilter, List.nil_append, List.filter_singleton]
        simp [hdin]
      have h2 : newDlcsEffect { s with dlcs := s.dlcs ++ [d] } =
          { s with dlcs := s.dlcs ++ [d]
                 , selectedDlcs := s.selectedDlcs ++ [d] } := by
        rw [newDlcsEffect, if_pos ⟨hinit, hcond⟩]
        simp only [hnew]
        rw [if_pos (by simp)]
      rw [h2]
      refine ⟨hvis, ?_, ?_⟩
      · intro hbad
        rw [hinit] at hbad
        cases hbad
      · intro _
        refine ⟨?_, ?_, fun a => ?_⟩
        · rw [List.map_append]
          simp only [List.map_cons, List.map_nil]
          rw [List.nodup_append]
          refine ⟨hnd, List.nodup_singleton _, ?_⟩
          intro a ha hb
          simp only [List.mem_singleton] at hb
          subst hb
          exact hdin ha
        · simp only [List.length_append, List.length_cons, List.length_nil]
          omega
        · simp only [List.map_append, List.mem_append, List.map_cons, List.map_nil,
            List.mem_singleton]
          constructor
          · rintro (h | rfl)
            · exact Or.inl ((hsame a).mp h)
            · exact Or.inr rfl
          · rintro (h | rfl)
            · exact Or.inl ((hsame a).mpr h)
            · exact Or.inr rfl
  · -- first arrival: the init effect copies the singleton list
    obtain ⟨hdlcs, hsel⟩ := hpre hinit
    have h1 : initializeSelectionEffect { s with dlcs := s.dlcs ++ [d] } =
        { s with dlcs := s.dlcs ++ [d], selectedDlcs := s.dlcs ++ [d]
               , initialized := true } := by
      rw [initializeSelectionEffect, if_pos]
      exact ⟨hvis, by simp, hinit⟩
    rw [h1, hdlcs]
    have h2 : newDlcsEffect
        { s with dlcs := [] ++ [d], selectedDlcs := [] ++ [d]
               , initialized := true } =
        { s with dlcs := [] ++ [d], selectedDlcs := [] ++ [d]
               , initialized := true } := by
      rw [newDlcsEffect, if_neg]
      simp
    rw [h2]
    refine ⟨hvis, ?_, ?_⟩
    · intro hbad
      cases hbad
    · intro _
      exact ⟨by simp, by simp, fun a => by simp⟩

theorem selectionInv_run (events : List DlcInfo) :
    SelectionInv (runDlcStream events) := by
  unfold runDlcStream
  have h : ∀ (es : List DlcInfo) (s : DlcSelectionState), SelectionInv s →
      SelectionInv (es.foldl (fun s d => dlcArrival d s) s) := by
    intro es
    induction es with
    | nil => intro s hs; exact hs
    | cons e rest ih =>
        intro s hs
        exact ih _ (selectionInv_arrival e hs)
  exact h events initialSelectionState selectionInv_initial

/-- C9: after any sequence of `dlc-found` emissions — any order, any
duplicates — the dialog's selection list holds at most one entry per
appid (its appid projection is duplicate free); since the emission
sequence is arbitrary, every state reached during the stream satisfies
this. -/
theorem dlc_selection_dedup (events : List DlcInfo) :
    ((runDlcStream events).selectedDlcs.map DlcInfo.appid).Nodup := by
  have hinv := selectionInv_run events
  cases hinit : (runDlcStream events).initialized with
  | false =>
      rw [(hinv.2.1 hinit).2]
      exact List.nodup_nil
  | true => exact (hinv.2.2 hinit).1

/-- C10: once the dialog is initialized, a further streamed arrival only
appends to the selection list — the existing entries, together with
their `enabled` flags, survive unchanged as a prefix. -/
theorem stream_arrival_preserves_toggles (s : DlcSelectionState) (d : DlcInfo)
    (h : s.initialized = true) :
    (dlcArrival d s).selectedDlcs.take s.selectedDlcs.length = s.selectedDlcs := by
  unfold dlcArrival
  have h1 : initializeSelectionEffect { s with dlcs := s.dlcs ++ [d] } =
      { s with dlcs := s.dlcs ++ [d] } := by
    rw [initializeSelectionEffect, if_neg]
    rintro ⟨-, -, hbad⟩
    rw [h] at hbad
    cases hbad
  rw [h1, newDlcsEffect]
  by_cases hc : ({ s with dlcs := s.dlcs ++ [d] } : DlcSelectionState).initialized
      = true ∧ s.selectedDlcs.length < (s.dlcs ++ [d]).length
  · rw [if_pos hc]
    by_cases hn : 0 < ((s.dlcs ++ [d]).filter
        (fun x => !((s.selectedDlcs.map DlcInfo.appid).contains x.appid))).length
    · rw [if_pos hn]
      exact List.take_left _ _
    · rw [if_neg hn]
      exact List.take_length _
  · rw [if_neg hc]
    exact List.take_length _

/-- A concrete initialized dialog state for the C10 witness. -/
def sampleSelectionState : DlcSelectionState :=
  { visible := true
  , dlcs := [{ appid := "101", name := "DlcA", enabled := true }]
  , selectedDlcs := [{ appid := "101", name := "DlcA", enabled := false }]
  , initialized := true }

/-- A newly streamed DLC for the C10 witness. -/
def sampleStreamedDlc : DlcInfo :=
  { appid := "102", name := "DlcB", enabled := true }

/-- C10 witness: an arrival on a concrete initialized state keeps the
user's toggled-off entry unchanged as a prefix. -/
theorem stream_arrival_preserves_toggles_witness :
    (dlcArrival sampleStreamedDlc sampleSelectionState).selectedDlcs.take
      sampleSelectionState.selectedDlcs.length
      = sampleSelectionState.selectedDlcs :=
  stream_arrival_preserves_toggles sampleSelectionState sampleStreamedDlc rfl

end CreamLinux
